import Mathlib

set_option maxHeartbeats 1000000

/-!
Shallow embedding of the response-acceleration layer in
`src/OS/ai_assistant.py` (class `AIAssistant`): the streaming decode loop
(`_request_streaming`), the LRU/TTL response cache (`_get_cache_key`,
`_get_from_cache`, `_add_to_cache`), the simulated-stream chunker
(`_chunk_text`), the metrics update (`_update_response_time`) and the
orchestrating entry point (`ask`).

Machine conventions: wall-clock instants (`datetime.now()`) are `Nat`
parameters threaded into each operation; elapsed wall times and sampling
temperatures (Python floats used only for exact arithmetic / equality
here) are `ℚ`; the transport's behaviour for one call is an explicit
input (a list of frames for the chunked path, an optional payload for the
one-shot path).
-/

/-- One event observed by the decode loop of `AIAssistant._request_streaming`
(lines 299-310): a non-empty line whose JSON parses to a frame carrying an
optional `message.content` string and a `done` flag; an empty (falsy) line
the loop skips; or a transport failure (connection error while iterating,
or a malformed line whose JSON parse raises) which the surrounding
`except` block catches. -/
inductive StreamEvent where
  | line (content : Option String) (done : Bool)
  | emptyLine
  | fail
deriving DecidableEq

/-- Text increments a single frame contributes: its `message.content` when
the `message` key is present and the text is non-empty (`if chunk_text:`),
nothing otherwise. -/
def frameChunk : StreamEvent → List String
  | StreamEvent.line (some t) _ => if t = "" then [] else [t]
  | _ => []

/-- Outcome of `_request_streaming`: the string the function returns, the
increments passed to `callback` in order, and whether the `except` branch
(which logs the error) was taken. -/
structure StreamOutcome where
  result : String
  delivered : List String
  errored : Bool
deriving DecidableEq

/-- Concatenation of a list of strings, as Python `''.join`. -/
def concatAll : List String → String
  | [] => ""
  | c :: cs => c ++ concatAll cs

/-- Loop of `AIAssistant._request_streaming` (lines 297-316): `acc` is the
`full_response` list. A frame's non-empty content is appended to
`full_response` and delivered to the callback; a frame flagged `done`
breaks the loop; exhausting the lines returns the joined accumulator; a
failure is caught by the `except` block, which logs and returns `""` —
increments already delivered to the callback stand. -/
def runStream : List StreamEvent → List String → StreamOutcome
  | [], acc => ⟨concatAll acc, acc, false⟩
  | StreamEvent.fail :: _, acc => ⟨"", acc, true⟩
  | StreamEvent.emptyLine :: rest, acc => runStream rest acc
  | StreamEvent.line c done :: rest, acc =>
      let acc2 := acc ++ frameChunk (StreamEvent.line c done)
      if done then ⟨concatAll acc2, acc2, false⟩ else runStream rest acc2

/-- Models `AIAssistant._request_streaming` given the sequence of events
the transport produces for this call. -/
def requestStreaming (events : List StreamEvent) : StreamOutcome :=
  runStream events []

/-- All non-empty text increments carried by a list of frames, in arrival
order. -/
def goodChunks : List StreamEvent → List String
  | [] => []
  | e :: rest => frameChunk e ++ goodChunks rest

/-- The frames the loop actually reads: everything up to and including the
first frame flagged `done` (the loop breaks there even if more frames are
available). -/
def takeToDone : List StreamEvent → List StreamEvent
  | [] => []
  | StreamEvent.line c d :: rest =>
      if d then [StreamEvent.line c d] else StreamEvent.line c d :: takeToDone rest
  | StreamEvent.emptyLine :: rest => StreamEvent.emptyLine :: takeToDone rest
  | StreamEvent.fail :: rest => StreamEvent.fail :: takeToDone rest

/-- An event that stops the decode loop: a failure or a `done`-flagged
frame. -/
def isStop : StreamEvent → Bool
  | StreamEvent.fail => true
  | StreamEvent.line _ true => true
  | _ => false

lemma concatAll_append (l1 l2 : List String) :
    concatAll (l1 ++ l2) = concatAll l1 ++ concatAll l2 := by
  induction l1 with
  | nil => simp [concatAll]
  | cons c cs ih => simp [concatAll, ih, String.append_assoc]

lemma runStream_ok (es : List StreamEvent) (acc : List String)
    (hok : StreamEvent.fail ∉ takeToDone es) :
    runStream es acc =
      ⟨concatAll (acc ++ goodChunks (takeToDone es)),
       acc ++ goodChunks (takeToDone es), false⟩ := by
  induction es generalizing acc with
  | nil => simp [runStream, takeToDone, goodChunks]
  | cons e rest ih =>
    cases e with
    | fail => simp [takeToDone] at hok
    | emptyLine =>
      simp only [takeToDone, List.mem_cons] at hok
      push_neg at hok
      simp only [runStream, takeToDone, goodChunks, frameChunk, List.nil_append]
      exact ih acc hok.2
    | line c d =>
      cases d with
      | true =>
        simp [runStream, takeToDone, goodChunks]
      | false =>
        simp only [takeToDone, if_neg (Bool.false_ne_true), List.mem_cons] at hok
        push_neg at hok
        simp only [runStream, if_neg (Bool.false_ne_true), takeToDone, goodChunks]
        rw [ih (acc ++ frameChunk (StreamEvent.line c false)) hok.2]
        simp [List.append_assoc]

lemma runStream_fail (es1 rest : List StreamEvent) (acc : List String)
    (h : ∀ e ∈ es1, isStop e = false) :
    runStream (es1 ++ StreamEvent.fail :: rest) acc =
      ⟨"", acc ++ goodChunks es1, true⟩ := by
  induction es1 generalizing acc with
  | nil => simp [runStream, goodChunks]
  | cons e es ih =>
    have he : isStop e = false := h e (List.mem_cons_self e es)
    have hrest : ∀ x ∈ es, isStop x = false := fun x hx => h x (List.mem_cons_of_mem e hx)
    cases e with
    | fail => simp [isStop] at he
    | emptyLine =>
      simp only [List.cons_append, runStream, goodChunks, frameChunk, List.nil_append]
      exact ih acc hrest
    | line c d =>
      cases d with
      | true => simp [isStop] at he
      | false =>
        simp only [List.cons_append, runStream, if_neg (Bool.false_ne_true), goodChunks,
          List.append_eq]
        rw [ih (acc ++ frameChunk (StreamEvent.line c false)) hrest]
        simp [List.append_assoc]

/-- C6: for every successful streaming call (no transport failure among the
frames the loop reads), every non-empty text increment read from the
transport is delivered to the sink in arrival order — the delivered list is
exactly `goodChunks` of the frames read up to the `done` marker — and the
returned full text equals the ordered concatenation of all delivered
increments. -/
theorem requestStreaming_success (events : List StreamEvent)
    (hok : StreamEvent.fail ∉ takeToDone events) :
    (requestStreaming events).errored = false
    ∧ (requestStreaming events).delivered = goodChunks (takeToDone events)
    ∧ (requestStreaming events).result = concatAll (requestStreaming events).delivered := by
  unfold requestStreaming
  rw [runStream_ok events [] hok]
  simp

/-- Witness for C6 at the spec's own example: the transport delivers the
increments "Hel" and "lo " and then a final frame; the sink receives
exactly those two increments in that order and the full text is their
concatenation "Hello ". -/
theorem requestStreaming_success_witness :
    (requestStreaming [StreamEvent.line (some "Hel") false,
        StreamEvent.line (some "lo ") false, StreamEvent.line none true]).errored = false
    ∧ (requestStreaming [StreamEvent.line (some "Hel") false,
        StreamEvent.line (some "lo ") false, StreamEvent.line none true]).delivered
      = goodChunks (takeToDone [StreamEvent.line (some "Hel") false,
          StreamEvent.line (some "lo ") false, StreamEvent.line none true])
    ∧ (requestStreaming [StreamEvent.line (some "Hel") false,
        StreamEvent.line (some "lo ") false, StreamEvent.line none true]).result
      = concatAll (requestStreaming [StreamEvent.line (some "Hel") false,
          StreamEvent.line (some "lo ") false, StreamEvent.line none true]).delivered :=
  requestStreaming_success _ (by decide)

/-- C1 counterexample: the transport delivers the increment "Hel" and then
fails. The sink has received "Hel" and the error is reported, but the call
returns the empty string — not the accumulated partial text "Hel" that the
claim says it returns. -/
theorem requestStreaming_failure_counterexample :
    (requestStreaming [StreamEvent.line (some "Hel") false, StreamEvent.fail]).delivered
        = ["Hel"]
    ∧ (requestStreaming [StreamEvent.line (some "Hel") false, StreamEvent.fail]).errored
        = true
    ∧ (requestStreaming [StreamEvent.line (some "Hel") false, StreamEvent.fail]).result
        ≠ "Hel" := by
  refine ⟨rfl, rfl, ?_⟩
  decide

/-- C1 (amended): when the transport delivers some increments and then
fails, the decode terminates early (frames after the failure are never
read), the increments already delivered to the sink stand — no rollback —
and an error is reported; but the call returns the empty string, not the
accumulated partial text. -/
theorem requestStreaming_failure (es1 rest : List StreamEvent)
    (h : ∀ e ∈ es1, isStop e = false) :
    requestStreaming (es1 ++ StreamEvent.fail :: rest)
      = ⟨"", goodChunks es1, true⟩ := by
  unfold requestStreaming
  rw [runStream_fail es1 rest [] h]
  simp

/-- Witness for C1 (amended): one increment "Hel" is delivered before the
failure; the call reports the error, keeps the delivery, and returns "". -/
theorem requestStreaming_failure_witness :
    requestStreaming ([StreamEvent.line (some "Hel") false] ++ StreamEvent.fail :: [])
      = ⟨"", goodChunks [StreamEvent.line (some "Hel") false], true⟩ :=
  requestStreaming_failure [StreamEvent.line (some "Hel") false] [] (by decide)

/-- Fingerprint for the response cache, modelling `AIAssistant._get_cache_key`
(lines 161-169). The Python code md5-hashes the key-sorted JSON
serialization of exactly these three fields; since the digest of a
deterministic serialization is determined by the fields themselves, the
model identifies the fingerprint with the triple. No other `ask` argument
(per-call max-tokens override, streaming callback, ...) is folded in. -/
structure CacheKey where
  prompt : String
  model : String
  temperature : ℚ
deriving DecidableEq

/-- One cache value of `AIAssistant`: the dict
`{'response': ..., 'timestamp': datetime.now()}` stored by `_add_to_cache`. -/
structure CacheEntry where
  response : String
  timestamp : Nat
deriving DecidableEq

/-- The response cache: Python's `OrderedDict`, as an association list in
insertion/recency order. The head is the first item `popitem(last=False)`
removes (least recently used); `move_to_end` places an entry at the tail. -/
abbrev Cache := List (CacheKey × CacheEntry)

/-- One message of the conversation context: a `role`/`content` dict. -/
structure Message where
  role : String
  content : String
deriving DecidableEq

/-- Mutable state of one `AIAssistant` instance: the fields of `__init__`
that the modelled operations read or write. `cacheMaxSize` is hard-coded
to 100 and `maxContextMessages` to 10 by `__init__`; they are kept as
fields so the invariants can be stated for the general bound. -/
structure AIState where
  model : String
  temperature : ℚ
  streamEnabled : Bool
  cacheEnabled : Bool
  cacheTtl : Nat
  cache : Cache
  cacheMaxSize : Nat
  context : List Message
  maxContextMessages : Nat
  totalRequests : Nat
  cacheHits : Nat
  streamingResponses : Nat
  averageResponseTime : ℚ
deriving DecidableEq

/-- The `**kwargs` fields of `ask` that the code ever reads:
`kwargs.get('model')`, `kwargs.get('temperature')` (both folded into the
cache key and the request payload) and `kwargs.get('max_tokens')` (sent to
the transport as `num_predict` only — never part of the cache key). -/
structure AskParams where
  model : Option String
  temperature : Option ℚ
  maxTokens : Option Nat
deriving DecidableEq

/-- Dict lookup `self.cache[cache_key]` (also the membership test
`cache_key in self.cache`). -/
def odGet : Cache → CacheKey → Option CacheEntry
  | [], _ => none
  | p :: rest, k => if p.1 = k then some p.2 else odGet rest k

/-- Assignment `self.cache[cache_key] = value` on an `OrderedDict`: an
existing key keeps its original position and only its value is replaced; a
new key is appended at the most-recently-inserted end. -/
def odSet : Cache → CacheKey → CacheEntry → Cache
  | [], k, v => [(k, v)]
  | p :: rest, k, v => if p.1 = k then (k, v) :: rest else p :: odSet rest k v

/-- Deletion `del self.cache[cache_key]`. -/
def odDelete : Cache → CacheKey → Cache
  | [], _ => []
  | p :: rest, k => if p.1 = k then rest else p :: odDelete rest k

/-- Promotion `self.cache.move_to_end(cache_key)`: the entry moves to the
most-recently-used end, everything else keeps its order. -/
def odMoveToEnd : Cache → CacheKey → Cache
  | [], _ => []
  | p :: rest, k => if p.1 = k then rest ++ [p] else p :: odMoveToEnd rest k

/-- Models `AIAssistant._get_cache_key` (lines 161-169): the fingerprint is
built from the prompt and the per-call `model` / `temperature` overrides,
falling back to the instance defaults. -/
def getCacheKey (s : AIState) (prompt : String) (p : AskParams) : CacheKey :=
  { prompt := prompt,
    model := p.model.getD s.model,
    temperature := p.temperature.getD s.temperature }

/-- Models `AIAssistant._get_from_cache` (lines 171-188), with `now` the
value of `datetime.now()` (seconds): returns the cached response together
with the successor state. Disabled cache or missing key: absent, state
unchanged. Expired entry (age strictly above `cache_ttl`): deleted,
absent, no hit counted. Otherwise: entry moved to the most-recently-used
end, hit counter incremented, response returned. -/
def getFromCache (s : AIState) (k : CacheKey) (now : Nat) :
    Option String × AIState :=
  if s.cacheEnabled = false then (none, s)
  else
    match odGet s.cache k with
    | none => (none, s)
    | some e =>
      if s.cacheTtl < now - e.timestamp then
        (none, { s with cache := odDelete s.cache k })
      else
        (some e.response,
         { s with cache := odMoveToEnd s.cache k, cacheHits := s.cacheHits + 1 })

/-- Models `AIAssistant._add_to_cache` (lines 190-202): a no-op when the
cache is disabled; otherwise, whenever the store already holds at least
`cache_max_size` items, `popitem(last=False)` drops the least-recently-used
entry (the head) before the assignment `self.cache[cache_key] = ...`. -/
def addToCache (s : AIState) (k : CacheKey) (response : String) (now : Nat) :
    AIState :=
  if s.cacheEnabled = false then s
  else
    let c := if s.cacheMaxSize ≤ s.cache.length then s.cache.drop 1 else s.cache
    { s with cache := odSet c k ⟨response, now⟩ }

/-- Keys of the cache in recency order. -/
def cacheKeys (c : Cache) : List CacheKey := c.map Prod.fst

/-- Fresh `AIAssistant` state as built by `__init__` from a configuration:
empty cache and context, zeroed metrics, `cache_max_size = 100`,
`max_context_messages = 10`. -/
def initState (model : String) (temperature : ℚ) (streamEnabled : Bool)
    (cacheEnabled : Bool) (cacheTtl : Nat) : AIState :=
  { model := model, temperature := temperature, streamEnabled := streamEnabled,
    cacheEnabled := cacheEnabled, cacheTtl := cacheTtl, cache := [],
    cacheMaxSize := 100, context := [], maxContextMessages := 10,
    totalRequests := 0, cacheHits := 0, streamingResponses := 0,
    averageResponseTime := 0 }

lemma odGet_mem (c : Cache) (k : CacheKey) (e : CacheEntry)
    (h : odGet c k = some e) : (k, e) ∈ c := by
  induction c with
  | nil => simp [odGet] at h
  | cons p rest ih =>
    by_cases hk : p.1 = k
    · simp only [odGet, if_pos hk, Option.some.injEq] at h
      cases p
      simp_all
    · simp only [odGet, if_neg hk] at h
      exact List.mem_cons_of_mem p (ih h)

lemma mem_cacheKeys_of_mem (c : Cache) (k : CacheKey) (e : CacheEntry)
    (h : (k, e) ∈ c) : k ∈ cacheKeys c :=
  List.mem_map_of_mem Prod.fst h

lemma map_ite_of_absent (c : Cache) (k : CacheKey) (v : CacheEntry)
    (h : ∀ p ∈ c, p.1 ≠ k) :
    c.map (fun p => if p.1 = k then (k, v) else p) = c := by
  induction c with
  | nil => rfl
  | cons p rest ih =>
    have hp : p.1 ≠ k := h p (List.mem_cons_self p rest)
    simp only [List.map_cons, if_neg hp]
    rw [ih fun q hq => h q (List.mem_cons_of_mem p hq)]

lemma not_mem_keys (c : Cache) (k : CacheKey) (h : k ∉ cacheKeys c) :
    ∀ p ∈ c, p.1 ≠ k := by
  intro p hp he
  exact h (he ▸ List.mem_map_of_mem Prod.fst hp)

lemma odSet_present (c : Cache) (k : CacheKey) (v : CacheEntry)
    (hnodup : (cacheKeys c).Nodup) (hmem : k ∈ cacheKeys c) :
    odSet c k v = c.map (fun p => if p.1 = k then (k, v) else p) := by
  induction c with
  | nil => simp [cacheKeys] at hmem
  | cons p rest ih =>
    simp only [cacheKeys, List.map_cons, List.nodup_cons] at hnodup
    by_cases hk : p.1 = k
    · simp only [odSet, if_pos hk, List.map_cons]
      rw [map_ite_of_absent rest k v (not_mem_keys rest k (hk ▸ hnodup.1))]
    · have hmem2 : k ∈ cacheKeys rest := by
        simp only [cacheKeys, List.map_cons, List.mem_cons] at hmem
        exact hmem.resolve_left fun he => hk he.symm
      simp only [odSet, if_neg hk, List.map_cons, if_neg hk]
      rw [ih hnodup.2 hmem2]

lemma odSet_absent (c : Cache) (k : CacheKey) (v : CacheEntry)
    (h : ∀ p ∈ c, p.1 ≠ k) :
    odSet c k v = c ++ [(k, v)] := by
  induction c with
  | nil => rfl
  | cons p rest ih =>
    have hp : p.1 ≠ k := h p (List.mem_cons_self p rest)
    simp only [odSet, if_neg hp, List.cons_append]
    rw [ih fun q hq => h q (List.mem_cons_of_mem p hq)]

lemma odSet_length_le (c : Cache) (k : CacheKey) (v : CacheEntry) :
    (odSet c k v).length ≤ c.length + 1 := by
  induction c with
  | nil => simp [odSet]
  | cons p rest ih =>
    by_cases hk : p.1 = k
    · simp [odSet, if_pos hk]
    · simp only [odSet, if_neg hk, List.length_cons]
      omega

lemma odDelete_eq_filter (c : Cache) (k : CacheKey)
    (hnodup : (cacheKeys c).Nodup) :
    odDelete c k = c.filter (fun p => decide (p.1 ≠ k)) := by
  induction c with
  | nil => rfl
  | cons p rest ih =>
    simp only [cacheKeys, List.map_cons, List.nodup_cons] at hnodup
    by_cases hk : p.1 = k
    · simp only [odDelete, if_pos hk, List.filter_cons]
      rw [if_neg (by simp [hk]), List.filter_eq_self.mpr]
      intro q hq
      simpa using not_mem_keys rest k (hk ▸ hnodup.1) q hq
    · simp only [odDelete, if_neg hk, List.filter_cons]
      rw [if_pos (by simpa using hk), ih hnodup.2]

lemma odMoveToEnd_eq (c : Cache) (k : CacheKey) (e : CacheEntry)
    (hget : odGet c k = some e) (hnodup : (cacheKeys c).Nodup) :
    odMoveToEnd c k = c.filter (fun p => decide (p.1 ≠ k)) ++ [(k, e)] := by
  induction c with
  | nil => simp [odGet] at hget
  | cons p rest ih =>
    simp only [cacheKeys, List.map_cons, List.nodup_cons] at hnodup
    by_cases hk : p.1 = k
    · simp only [odGet, if_pos hk, Option.some.injEq] at hget
      have hp : p = (k, e) := by cases p; simp_all
      simp only [odMoveToEnd, if_pos hk, List.filter_cons]
      rw [if_neg (by simp [hk]), List.filter_eq_self.mpr, hp]
      intro q hq
      simpa using not_mem_keys rest k (hk ▸ hnodup.1) q hq
    · simp only [odGet, if_neg hk] at hget
      simp only [odMoveToEnd, if_neg hk, List.filter_cons]
      rw [if_pos (by simpa using hk), ih hget hnodup.2]
      simp

lemma filter_ne_length (c : Cache) (k : CacheKey)
    (hmem : k ∈ cacheKeys c) (hnodup : (cacheKeys c).Nodup) :
    (c.filter (fun p => decide (p.1 ≠ k))).length + 1 = c.length := by
  induction c with
  | nil => simp [cacheKeys] at hmem
  | cons p rest ih =>
    simp only [cacheKeys, List.map_cons, List.nodup_cons] at hnodup
    by_cases hk : p.1 = k
    · simp only [List.filter_cons]
      rw [if_neg (by simp [hk]), List.filter_eq_self.mpr]
      · simp
      · intro q hq
        simpa using not_mem_keys rest k (hk ▸ hnodup.1) q hq
    · have hmem2 : k ∈ cacheKeys rest := by
        simp only [cacheKeys, List.map_cons, List.mem_cons] at hmem
        exact hmem.resolve_left fun he => hk he.symm
      simp only [List.filter_cons]
      rw [if_pos (by simpa using hk)]
      simp only [List.length_cons]
      have hih := ih hmem2 hnodup.2
      omega

/-- Concrete assistant state whose cache holds entries for fingerprints
"a" (oldest) and "b" (newest). -/
def cacheStateAB : AIState :=
  { initState "m" 1 true true 300 with
      cache := [(⟨"a", "m", 1⟩, ⟨"old", 0⟩), (⟨"b", "m", 1⟩, ⟨"bee", 0⟩)] }

/-- C2 counterexample: re-inserting under the already-present fingerprint
"a" replaces its response and timestamp, but the entry stays at its old
(least-recently-used) position instead of becoming most-recently-used as
the claim states. -/
theorem addToCache_existing_counterexample :
    (addToCache cacheStateAB ⟨"a", "m", 1⟩ "new" 5).cache
      = [(⟨"a", "m", 1⟩, ⟨"new", 5⟩), (⟨"b", "m", 1⟩, ⟨"bee", 0⟩)]
    ∧ (addToCache cacheStateAB ⟨"a", "m", 1⟩ "new" 5).cache.getLast?
      ≠ some (⟨"a", "m", 1⟩, ⟨"new", 5⟩) := by
  decide

/-- C2 (amended): a put under a fingerprint already present (cache enabled,
below capacity) replaces the stored response and resets the entry's
timestamp in place, but keeps the entry's recency position: the OrderedDict
assignment leaves an existing key where it was, so the entry is not
promoted to most-recently-used. -/
theorem addToCache_existing (s : AIState) (k : CacheKey) (r : String) (now : Nat)
    (hen : s.cacheEnabled = true)
    (hmem : k ∈ cacheKeys s.cache)
    (hnodup : (cacheKeys s.cache).Nodup)
    (hlen : s.cache.length < s.cacheMaxSize) :
    (addToCache s k r now).cache
      = s.cache.map (fun p => if p.1 = k then (k, ⟨r, now⟩) else p) := by
  have hnotfull : ¬ s.cacheMaxSize ≤ s.cache.length := by omega
  simp only [addToCache, hen, Bool.true_eq_false, if_false, if_neg hnotfull]
  exact odSet_present s.cache k ⟨r, now⟩ hnodup hmem

/-- Witness for C2 (amended) on `cacheStateAB`. -/
theorem addToCache_existing_witness :
    (addToCache cacheStateAB ⟨"a", "m", 1⟩ "new" 5).cache
      = cacheStateAB.cache.map
          (fun p => if p.1 = (⟨"a", "m", 1⟩ : CacheKey)
                    then ((⟨"a", "m", 1⟩ : CacheKey), (⟨"new", 5⟩ : CacheEntry))
                    else p) :=
  addToCache_existing cacheStateAB ⟨"a", "m", 1⟩ "new" 5
    (by decide) (by decide) (by decide) (by decide)

lemma addToCache_cacheMaxSize (s : AIState) (k : CacheKey) (r : String) (now : Nat) :
    (addToCache s k r now).cacheMaxSize = s.cacheMaxSize := by
  unfold addToCache
  split <;> rfl

lemma addToCache_length (s : AIState) (k : CacheKey) (r : String) (now : Nat)
    (hmax : 1 ≤ s.cacheMaxSize) (hlen : s.cache.length ≤ s.cacheMaxSize) :
    (addToCache s k r now).cache.length ≤ s.cacheMaxSize := by
  by_cases hen : s.cacheEnabled = false
  · simp only [addToCache, if_pos hen]
    exact hlen
  · by_cases hfull : s.cacheMaxSize ≤ s.cache.length
    · have h1 := odSet_length_le (s.cache.drop 1) k ⟨r, now⟩
      simp only [List.length_drop] at h1
      simp only [addToCache, if_neg hen, if_pos hfull]
      omega
    · have h1 := odSet_length_le s.cache k ⟨r, now⟩
      simp only [addToCache, if_neg hen, if_neg hfull]
      omega

lemma applyPuts_length (puts : List (CacheKey × String × Nat)) (s : AIState)
    (hmax : 1 ≤ s.cacheMaxSize) (hlen : s.cache.length ≤ s.cacheMaxSize) :
    (puts.foldl (fun st p => addToCache st p.1 p.2.1 p.2.2) s).cache.length
      ≤ s.cacheMaxSize := by
  induction puts generalizing s with
  | nil => simpa using hlen
  | cons p rest ih =>
    simp only [List.foldl_cons]
    have hm := addToCache_cacheMaxSize s p.1 p.2.1 p.2.2
    have h1 := addToCache_length s p.1 p.2.1 p.2.2 hmax hlen
    have h2 := ih (addToCache s p.1 p.2.1 p.2.2) (by rw [hm]; exact hmax) (by rw [hm]; exact h1)
    rwa [hm] at h2

/-- C3: across any sequence of cache writes the number of live entries
never exceeds `cache_max_size` (hard-coded to 100, so at least 1), and a
write of a fresh fingerprint into a full cache first evicts the
least-recently-used entry (the head of the OrderedDict) and then appends
the new entry at the most-recently-used end. -/
theorem cache_size_bounded (s : AIState) (puts : List (CacheKey × String × Nat))
    (hmax : 1 ≤ s.cacheMaxSize)
    (hlen : s.cache.length ≤ s.cacheMaxSize) :
    (puts.foldl (fun st p => addToCache st p.1 p.2.1 p.2.2) s).cache.length
        ≤ s.cacheMaxSize
    ∧ ∀ k r now, s.cacheEnabled = true → s.cache.length = s.cacheMaxSize →
        (∀ p ∈ s.cache, p.1 ≠ k) →
        (addToCache s k r now).cache = s.cache.drop 1 ++ [(k, ⟨r, now⟩)] := by
  refine ⟨applyPuts_length puts s hmax hlen, ?_⟩
  intro k r now hen hfull habs
  have hfull2 : s.cacheMaxSize ≤ s.cache.length := le_of_eq hfull.symm
  simp only [addToCache, hen, Bool.true_eq_false, if_false, if_pos hfull2]
  exact odSet_absent (s.cache.drop 1) k ⟨r, now⟩
    fun p hp => habs p (List.drop_subset 1 s.cache hp)

/-- Concrete assistant state at capacity: `cache_max_size` of 2 with two
live entries, "a" least recently used. -/
def cacheStateFull : AIState :=
  { initState "m" 1 true true 300 with
      cacheMaxSize := 2,
      cache := [(⟨"a", "m", 1⟩, ⟨"ra", 0⟩), (⟨"b", "m", 1⟩, ⟨"rb", 0⟩)] }

/-- Witness for C3: two further puts never push the full two-entry cache
above its capacity, and a single put of the fresh fingerprint "c" evicts
the least-recently-used entry "a" before appending "c". -/
theorem cache_size_bounded_witness :
    (([((⟨"c", "m", 1⟩ : CacheKey), "rc", 7), ((⟨"d", "m", 1⟩ : CacheKey), "rd", 8)] :
        List (CacheKey × String × Nat)).foldl
        (fun st p => addToCache st p.1 p.2.1 p.2.2) cacheStateFull).cache.length
      ≤ cacheStateFull.cacheMaxSize
    ∧ (addToCache cacheStateFull ⟨"c", "m", 1⟩ "rc" 7).cache
        = cacheStateFull.cache.drop 1 ++ [(⟨"c", "m", 1⟩, ⟨"rc", 7⟩)] := by
  refine ⟨(cache_size_bounded cacheStateFull _ (by decide) (by decide)).1, ?_⟩
  exact (cache_size_bounded cacheStateFull [] (by decide) (by decide)).2
    ⟨"c", "m", 1⟩ "rc" 7 (by decide) (by decide) (by decide)

/-- Concrete assistant state whose cache holds a single entry for
fingerprint "q", written at time 0 with ttl 300. -/
def cacheStateQ : AIState :=
  { initState "m" 1 true true 300 with
      cache := [(⟨"q", "m", 1⟩, ⟨"resp", 0⟩)] }

/-- C4: looking up a fingerprint whose entry is older than `cache_ttl`
deletes the entry, returns absent, counts no hit, and the store shrinks by
one; looking up a non-expired entry returns its response, moves it to the
most-recently-used end, increments the hit counter, and leaves the size
unchanged. -/
theorem getFromCache_spec (s : AIState) (k : CacheKey) (e : CacheEntry) (now : Nat)
    (hen : s.cacheEnabled = true)
    (hget : odGet s.cache k = some e)
    (hnodup : (cacheKeys s.cache).Nodup) :
    (s.cacheTtl < now - e.timestamp →
       getFromCache s k now
         = (none, { s with cache := s.cache.filter (fun p => decide (p.1 ≠ k)) })
       ∧ (getFromCache s k now).2.cache.length + 1 = s.cache.length)
    ∧ (¬ s.cacheTtl < now - e.timestamp →
       getFromCache s k now
         = (some e.response,
            { s with
                cache := s.cache.filter (fun p => decide (p.1 ≠ k)) ++ [(k, e)],
                cacheHits := s.cacheHits + 1 })
       ∧ (getFromCache s k now).2.cache.length = s.cache.length) := by
  have hmem : k ∈ cacheKeys s.cache :=
    mem_cacheKeys_of_mem s.cache k e (odGet_mem s.cache k e hget)
  have hflen := filter_ne_length s.cache k hmem hnodup
  constructor
  · intro hexp
    have heq : getFromCache s k now
        = (none, { s with cache := s.cache.filter (fun p => decide (p.1 ≠ k)) }) := by
      simp only [getFromCache, hen, Bool.true_eq_false, if_false, hget, if_pos hexp]
      rw [odDelete_eq_filter s.cache k hnodup]
    refine ⟨heq, ?_⟩
    rw [heq]
    exact hflen
  · intro hfresh
    have heq : getFromCache s k now
        = (some e.response,
           { s with
               cache := s.cache.filter (fun p => decide (p.1 ≠ k)) ++ [(k, e)],
               cacheHits := s.cacheHits + 1 }) := by
      simp only [getFromCache, hen, Bool.true_eq_false, if_false, hget, if_neg hfresh]
      rw [odMoveToEnd_eq s.cache k e hget hnodup]
    refine ⟨heq, ?_⟩
    rw [heq]
    simp only [List.length_append, List.length_singleton]
    omega

/-- Witness for C4 on `cacheStateQ`: at time 1000 the entry (written at 0,
ttl 300) is expired — deleted, absent, no hit, size down by one; at time 10
it is fresh — returned, promoted, hit counted, size unchanged. -/
theorem getFromCache_spec_witness :
    (getFromCache cacheStateQ ⟨"q", "m", 1⟩ 1000
        = (none, { cacheStateQ with
            cache := cacheStateQ.cache.filter
              (fun p => decide (p.1 ≠ (⟨"q", "m", 1⟩ : CacheKey))) })
      ∧ (getFromCache cacheStateQ ⟨"q", "m", 1⟩ 1000).2.cache.length + 1
          = cacheStateQ.cache.length)
    ∧ (getFromCache cacheStateQ ⟨"q", "m", 1⟩ 10
        = (some "resp", { cacheStateQ with
            cache := cacheStateQ.cache.filter
                (fun p => decide (p.1 ≠ (⟨"q", "m", 1⟩ : CacheKey)))
              ++ [(⟨"q", "m", 1⟩, ⟨"resp", 0⟩)],
            cacheHits := cacheStateQ.cacheHits + 1 })
      ∧ (getFromCache cacheStateQ ⟨"q", "m", 1⟩ 10).2.cache.length
          = cacheStateQ.cache.length) :=
  ⟨(getFromCache_spec cacheStateQ ⟨"q", "m", 1⟩ ⟨"resp", 0⟩ 1000
      (by decide) (by decide) (by decide)).1 (by decide),
   (getFromCache_spec cacheStateQ ⟨"q", "m", 1⟩ ⟨"resp", 0⟩ 10
      (by decide) (by decide) (by decide)).2 (by decide)⟩

/-- C7 counterexample: two requests identical in prompt, model and
temperature but differing in the caller-supplied max-tokens parameter
(which the code does send to the transport as `num_predict`, so it affects
the answer) receive the SAME fingerprint — the claim requires their
fingerprints to differ. -/
theorem getCacheKey_counterexample :
    getCacheKey (initState "m" 1 true true 300) "p" ⟨none, none, some 5⟩
      = getCacheKey (initState "m" 1 true true 300) "p" ⟨none, none, some 512⟩
    ∧ ((⟨none, none, some 5⟩ : AskParams).maxTokens
        ≠ (⟨none, none, some 512⟩ : AskParams).maxTokens) := by
  decide

/-- C7 (amended): the fingerprint is determined by the prompt and the
effective model and temperature alone; any other call parameter — the
max-tokens override (read only for the transport payload) or a streaming
callback (not an argument of `_get_cache_key` at all) — never changes it. -/
theorem getCacheKey_params (s : AIState) (prompt : String) (p q : AskParams)
    (hm : p.model = q.model) (ht : p.temperature = q.temperature) :
    getCacheKey s prompt p = getCacheKey s prompt q := by
  simp [getCacheKey, hm, ht]

/-- Witness for C7 (amended): max-tokens 5 versus 512, same fingerprint. -/
theorem getCacheKey_params_witness :
    getCacheKey (initState "m" 1 true true 300) "p" ⟨none, none, some 5⟩
      = getCacheKey (initState "m" 1 true true 300) "p" ⟨none, none, some 512⟩ :=
  getCacheKey_params (initState "m" 1 true true 300) "p"
    ⟨none, none, some 5⟩ ⟨none, none, some 512⟩ rfl rfl

/-- Whitespace split of Python `str.split()` (no separator argument): runs
of whitespace separate the words and are discarded, so no empty strings
appear in the result. `acc` holds the characters of the word in progress,
reversed. -/
def pySplitAux : List Char → List Char → List String
  | [], acc => if acc = [] then [] else [String.mk acc.reverse]
  | c :: cs, acc =>
      if c.isWhitespace then
        if acc = [] then pySplitAux cs []
        else String.mk acc.reverse :: pySplitAux cs []
      else pySplitAux cs (c :: acc)

/-- Python `text.split()` as used by `_chunk_text` (line 351). -/
def pySplit (t : String) : List String := pySplitAux t.data []

/-- Python `' '.join(words)`. -/
def joinSp : List String → String
  | [] => ""
  | [w] => w
  | w :: ws => w ++ " " ++ joinSp ws

/-- Loop of `AIAssistant._chunk_text` (lines 349-356) with `chunk_size = 10`
(the value `ask` uses): the words at positions `i, i+1, ...` grouped ten at
a time, each group joined with single spaces, and a trailing space added to
every group except the last. The structural `fuel` argument dominates the
ten-at-a-time recursion; it is set to the word count at the entry point, so
it never runs out. -/
def chunkWordsAux : Nat → List String → List String
  | _, [] => []
  | 0, _ :: _ => []
  | fuel + 1, w :: ws =>
      let chunk := joinSp ((w :: ws).take 10)
      if 10 < (w :: ws).length then (chunk ++ " ") :: chunkWordsAux fuel (ws.drop 9)
      else [chunk]

/-- The chunks `_chunk_text(text, chunk_size=10)` yields. -/
def chunkText (t : String) : List String :=
  chunkWordsAux (pySplit t).length (pySplit t)

lemma joinSp_cons_cons (w v : String) (vs : List String) :
    joinSp (w :: v :: vs) = w ++ " " ++ joinSp (v :: vs) := rfl

lemma joinSp_append (l1 l2 : List String) (h1 : l1 ≠ []) (h2 : l2 ≠ []) :
    joinSp (l1 ++ l2) = joinSp l1 ++ " " ++ joinSp l2 := by
  induction l1 with
  | nil => simp at h1
  | cons w ws ih =>
    cases ws with
    | nil =>
      cases l2 with
      | nil => simp at h2
      | cons x xs => simp [joinSp]
    | cons v vs =>
      have hys := ih (by simp)
      simp only [List.cons_append] at hys ⊢
      rw [joinSp_cons_cons, joinSp_cons_cons, hys]
      simp [String.append_assoc]

lemma concat_chunkWordsAux (fuel : Nat) (ws : List String)
    (hf : ws.length ≤ fuel) :
    concatAll (chunkWordsAux fuel ws) = joinSp ws := by
  induction fuel generalizing ws with
  | zero =>
    cases ws with
    | nil => simp [chunkWordsAux, concatAll, joinSp]
    | cons w ws2 => simp at hf
  | succ fuel ih =>
    cases ws with
    | nil => simp [chunkWordsAux, concatAll, joinSp]
    | cons w ws2 =>
      by_cases h10 : 10 < (w :: ws2).length
      · have hlt : (ws2.drop 9).length ≤ fuel := by
          simp only [List.length_cons] at hf
          simp only [List.length_drop]
          omega
        simp only [chunkWordsAux, if_pos h10, concatAll, ih (ws2.drop 9) hlt]
        have hdrop : ws2.drop 9 = (w :: ws2).drop 10 := rfl
        have htake : (w :: ws2).take 10 ≠ [] := by simp
        have hdne : (w :: ws2).drop 10 ≠ [] := by
          rw [ne_eq, List.drop_eq_nil_iff]
          omega
        rw [hdrop, ← joinSp_append _ _ htake hdne, List.take_append_drop]
      · simp only [chunkWordsAux, if_neg h10, concatAll]
        rw [List.take_of_length_le (by omega)]
        simp

/-- Every chunk the chunker yields renders a non-empty group of at most ten
consecutive words of the input, joined by single spaces, with a trailing
space on every group but the last. -/
lemma chunkWordsAux_mem (fuel : Nat) (ws : List String) (c : String)
    (hf : ws.length ≤ fuel) (hc : c ∈ chunkWordsAux fuel ws) :
    ∃ g, g ≠ [] ∧ g.length ≤ 10 ∧ (∃ l1 l2, ws = l1 ++ g ++ l2)
      ∧ (c = joinSp g ∨ c = joinSp g ++ " ") := by
  induction fuel generalizing ws with
  | zero =>
    cases ws with
    | nil => simp [chunkWordsAux] at hc
    | cons w ws2 => simp at hf
  | succ fuel ih =>
    cases ws with
    | nil => simp [chunkWordsAux] at hc
    | cons w ws2 =>
      by_cases h10 : 10 < (w :: ws2).length
      · simp only [chunkWordsAux, if_pos h10, List.mem_cons] at hc
        rcases hc with hc | hc
        · refine ⟨(w :: ws2).take 10, by simp, by simp, ⟨[], (w :: ws2).drop 10, ?_⟩,
            Or.inr hc⟩
          simp [List.take_append_drop]
        · have hlt : (ws2.drop 9).length ≤ fuel := by
            simp only [List.length_cons] at hf
            simp only [List.length_drop]
            omega
          obtain ⟨g, hg1, hg2, ⟨l1, l2, hg3⟩, hg4⟩ := ih (ws2.drop 9) hlt hc
          refine ⟨g, hg1, hg2, ⟨(w :: ws2).take 10 ++ l1, l2, ?_⟩, hg4⟩
          have hdrop : (w :: ws2).drop 10 = ws2.drop 9 := rfl
          calc w :: ws2 = (w :: ws2).take 10 ++ (w :: ws2).drop 10 :=
                (List.take_append_drop 10 (w :: ws2)).symm
            _ = (w :: ws2).take 10 ++ (l1 ++ g ++ l2) := by rw [hdrop, hg3]
            _ = (w :: ws2).take 10 ++ l1 ++ g ++ l2 := by simp [List.append_assoc]
      · simp only [chunkWordsAux, if_neg h10, List.mem_singleton] at hc
        rw [List.take_of_length_le (by omega)] at hc
        exact ⟨w :: ws2, by simp, by simp at h10 ⊢; omega, ⟨[], [], by simp⟩, Or.inl hc⟩

/-- Models `AIAssistant._request_standard` (lines 318-347): the transport
either produces a usable payload whose `message.content` is extracted
(`some t`, where `t` may be empty if the payload carried no content), or
fails (non-200 status or exception), in which case the function logs and
returns the empty string. -/
def requestStandard : Option String → String
  | some t => t
  | none => ""

/-- Arguments of one `ask` call (lines 204-209) together with the
environment the call observes: the transport's behaviour for this call (a
frame list for the chunked path, an optional payload for the one-shot
path), the wall-clock instant `now` at which `datetime.now()` reads, and
the elapsed wall time the `time.time()` bracket measures. `hasSink` is
whether a `stream_callback` was supplied. -/
structure AskArgs where
  prompt : String
  useContext : Bool
  useCache : Bool
  hasSink : Bool
  params : AskParams
  transportEvents : List StreamEvent
  transportOneShot : Option String
  now : Nat
  elapsed : ℚ
deriving DecidableEq

/-- Result of one `ask` call: the returned text, the increments delivered
to the caller's sink (empty when no sink was supplied), and the successor
state. -/
structure AskResult where
  text : String
  delivered : List String
  state : AIState
deriving DecidableEq

/-- Dispatch step of `ask` (lines 245-249): the streaming path is taken
exactly when streaming is enabled and a sink was supplied, and then the
streaming-response counter is incremented; otherwise the one-shot path is
used and delivers nothing to a sink. -/
def dispatchRequest (s : AIState) (a : AskArgs) : String × List String × AIState :=
  if s.streamEnabled && a.hasSink then
    ((requestStreaming a.transportEvents).result,
     (requestStreaming a.transportEvents).delivered,
     { s with streamingResponses := s.streamingResponses + 1 })
  else
    (requestStandard a.transportOneShot, [], s)

/-- Python slice `l[-k:]`: the last `k` elements — except that `-0` is `0`,
so `l[-0:]` is the whole list. -/
def pySliceLast (k : Nat) (l : List Message) : List Message :=
  if k = 0 then l else l.drop (l.length - k)

/-- Truncation guard of lines 256-258: the context is cut to its last
`max_context_messages * 2` entries only when it exceeds that cap. -/
def truncCtx (m : Nat) (ctx : List Message) : List Message :=
  if m * 2 < ctx.length then pySliceLast (m * 2) ctx else ctx

/-- Context update step of `ask` (lines 251-258): when `use_context` is set
and the response text is truthy, the user/assistant pair is appended and
the list truncated to its last `max_context_messages * 2` entries whenever
it exceeds that cap. -/
def updateContext (s : AIState) (a : AskArgs) (respText : String) : AIState :=
  if a.useContext && !(respText = "") then
    { s with
        context := truncCtx s.maxContextMessages
          (s.context ++ [⟨"user", a.prompt⟩, ⟨"assistant", respText⟩]) }
  else s

/-- Cache-population step of `ask` (lines 260-263): when `use_cache` is set
and the response text is truthy, the response is written under the
re-derived fingerprint. -/
def cacheWrite (s : AIState) (a : AskArgs) (key : CacheKey) (respText : String) :
    AIState :=
  if a.useCache && !(respText = "") then addToCache s key respText a.now else s

/-- Models `AIAssistant._update_response_time` (lines 358-362): the running
mean is recomputed from the current request counter. -/
def updateResponseTime (s : AIState) (elapsed : ℚ) : AIState :=
  { s with
      averageResponseTime :=
        (s.averageResponseTime * ((s.totalRequests : ℚ) - 1) + elapsed)
          / (s.totalRequests : ℚ) }

/-- The cache-miss tail of `ask` (lines 238-271): dispatch to the
transport, update the context, populate the cache, record the elapsed
time. -/
def askMiss (s : AIState) (a : AskArgs) (key : CacheKey) : AskResult :=
  { text := (dispatchRequest s a).1,
    delivered := (dispatchRequest s a).2.1,
    state := updateResponseTime
      (cacheWrite (updateContext (dispatchRequest s a).2.2 a (dispatchRequest s a).1)
        a key (dispatchRequest s a).1)
      a.elapsed }

/-- Models `AIAssistant.ask` (lines 204-271): the request counter is bumped
first; with `use_cache` set, a cache hit with truthy text short-circuits —
a supplied sink receives the cached text re-chunked, the cached text is
returned, and neither the context, the cache population step, nor the
response-time mean runs. Everything else falls through to the miss tail. -/
def ask (s0 : AIState) (a : AskArgs) : AskResult :=
  let s1 := { s0 with totalRequests := s0.totalRequests + 1 }
  let key := getCacheKey s1 a.prompt a.params
  if a.useCache then
    let g := getFromCache s1 key a.now
    match g.1 with
    | some cached =>
      if cached = "" then askMiss g.2 a key
      else { text := cached,
             delivered := if a.hasSink then chunkText cached else [],
             state := g.2 }
    | none => askMiss g.2 a key
  else askMiss s1 a key

/-- State reached after a sequence of `ask` calls. -/
def askSeqState (s : AIState) (calls : List AskArgs) : AIState :=
  calls.foldl (fun st a => (ask st a).state) s

lemma dispatchRequest_cache (s : AIState) (a : AskArgs) :
    (dispatchRequest s a).2.2.cache = s.cache := by
  unfold dispatchRequest; split <;> rfl

lemma dispatchRequest_cacheHits (s : AIState) (a : AskArgs) :
    (dispatchRequest s a).2.2.cacheHits = s.cacheHits := by
  unfold dispatchRequest; split <;> rfl

lemma dispatchRequest_cacheEnabled (s : AIState) (a : AskArgs) :
    (dispatchRequest s a).2.2.cacheEnabled = s.cacheEnabled := by
  unfold dispatchRequest; split <;> rfl

lemma dispatchRequest_totalRequests (s : AIState) (a : AskArgs) :
    (dispatchRequest s a).2.2.totalRequests = s.totalRequests := by
  unfold dispatchRequest; split <;> rfl

lemma dispatchRequest_avg (s : AIState) (a : AskArgs) :
    (dispatchRequest s a).2.2.averageResponseTime = s.averageResponseTime := by
  unfold dispatchRequest; split <;> rfl

lemma dispatchRequest_context (s : AIState) (a : AskArgs) :
    (dispatchRequest s a).2.2.context = s.context := by
  unfold dispatchRequest; split <;> rfl

lemma dispatchRequest_maxCtx (s : AIState) (a : AskArgs) :
    (dispatchRequest s a).2.2.maxContextMessages = s.maxContextMessages := by
  unfold dispatchRequest; split <;> rfl

lemma updateContext_cache (s : AIState) (a : AskArgs) (t : String) :
    (updateContext s a t).cache = s.cache := by
  unfold updateContext; split <;> rfl

lemma updateContext_cacheHits (s : AIState) (a : AskArgs) (t : String) :
    (updateContext s a t).cacheHits = s.cacheHits := by
  unfold updateContext; split <;> rfl

lemma updateContext_cacheEnabled (s : AIState) (a : AskArgs) (t : String) :
    (updateContext s a t).cacheEnabled = s.cacheEnabled := by
  unfold updateContext; split <;> rfl

lemma updateContext_totalRequests (s : AIState) (a : AskArgs) (t : String) :
    (updateContext s a t).totalRequests = s.totalRequests := by
  unfold updateContext; split <;> rfl

lemma updateContext_avg (s : AIState) (a : AskArgs) (t : String) :
    (updateContext s a t).averageResponseTime = s.averageResponseTime := by
  unfold updateContext; split <;> rfl

lemma updateContext_maxCtx (s : AIState) (a : AskArgs) (t : String) :
    (updateContext s a t).maxContextMessages = s.maxContextMessages := by
  unfold updateContext; split <;> rfl

lemma addToCache_cacheHits (s : AIState) (k : CacheKey) (r : String) (now : Nat) :
    (addToCache s k r now).cacheHits = s.cacheHits := by
  unfold addToCache; split <;> rfl

lemma addToCache_cacheEnabled (s : AIState) (k : CacheKey) (r : String) (now : Nat) :
    (addToCache s k r now).cacheEnabled = s.cacheEnabled := by
  unfold addToCache; split <;> rfl

lemma addToCache_totalRequests (s : AIState) (k : CacheKey) (r : String) (now : Nat) :
    (addToCache s k r now).totalRequests = s.totalRequests := by
  unfold addToCache; split <;> rfl

lemma addToCache_avg (s : AIState) (k : CacheKey) (r : String) (now : Nat) :
    (addToCache s k r now).averageResponseTime = s.averageResponseTime := by
  unfold addToCache; split <;> rfl

lemma addToCache_context (s : AIState) (k : CacheKey) (r : String) (now : Nat) :
    (addToCache s k r now).context = s.context := by
  unfold addToCache; split <;> rfl

lemma addToCache_maxCtx (s : AIState) (k : CacheKey) (r : String) (now : Nat) :
    (addToCache s k r now).maxContextMessages = s.maxContextMessages := by
  unfold addToCache; split <;> rfl

lemma addToCache_disabled (s : AIState) (k : CacheKey) (r : String) (now : Nat)
    (h : s.cacheEnabled = false) : addToCache s k r now = s := by
  simp [addToCache, h]

lemma cacheWrite_cacheHits (s : AIState) (a : AskArgs) (k : CacheKey) (t : String) :
    (cacheWrite s a k t).cacheHits = s.cacheHits := by
  unfold cacheWrite; split
  · exact addToCache_cacheHits s k t a.now
  · rfl

lemma cacheWrite_cacheEnabled (s : AIState) (a : AskArgs) (k : CacheKey) (t : String) :
    (cacheWrite s a k t).cacheEnabled = s.cacheEnabled := by
  unfold cacheWrite; split
  · exact addToCache_cacheEnabled s k t a.now
  · rfl

lemma cacheWrite_totalRequests (s : AIState) (a : AskArgs) (k : CacheKey) (t : String) :
    (cacheWrite s a k t).totalRequests = s.totalRequests := by
  unfold cacheWrite; split
  · exact addToCache_totalRequests s k t a.now
  · rfl

lemma cacheWrite_avg (s : AIState) (a : AskArgs) (k : CacheKey) (t : String) :
    (cacheWrite s a k t).averageResponseTime = s.averageResponseTime := by
  unfold cacheWrite; split
  · exact addToCache_avg s k t a.now
  · rfl

lemma cacheWrite_context (s : AIState) (a : AskArgs) (k : CacheKey) (t : String) :
    (cacheWrite s a k t).context = s.context := by
  unfold cacheWrite; split
  · exact addToCache_context s k t a.now
  · rfl

lemma cacheWrite_maxCtx (s : AIState) (a : AskArgs) (k : CacheKey) (t : String) :
    (cacheWrite s a k t).maxContextMessages = s.maxContextMessages := by
  unfold cacheWrite; split
  · exact addToCache_maxCtx s k t a.now
  · rfl

lemma cacheWrite_cache_disabled (s : AIState) (a : AskArgs) (k : CacheKey) (t : String)
    (h : s.cacheEnabled = false) : (cacheWrite s a k t).cache = s.cache := by
  unfold cacheWrite; split
  · rw [addToCache_disabled s k t a.now h]
  · rfl

lemma updateResponseTime_cache (s : AIState) (e : ℚ) :
    (updateResponseTime s e).cache = s.cache := rfl

lemma updateResponseTime_cacheHits (s : AIState) (e : ℚ) :
    (updateResponseTime s e).cacheHits = s.cacheHits := rfl

lemma updateResponseTime_totalRequests (s : AIState) (e : ℚ) :
    (updateResponseTime s e).totalRequests = s.totalRequests := rfl

lemma updateResponseTime_context (s : AIState) (e : ℚ) :
    (updateResponseTime s e).context = s.context := rfl

lemma updateResponseTime_maxCtx (s : AIState) (e : ℚ) :
    (updateResponseTime s e).maxContextMessages = s.maxContextMessages := rfl

lemma getFromCache_context (s : AIState) (k : CacheKey) (now : Nat) :
    (getFromCache s k now).2.context = s.context := by
  unfold getFromCache
  split
  · rfl
  · split
    · rfl
    · split <;> rfl

lemma getFromCache_totalRequests (s : AIState) (k : CacheKey) (now : Nat) :
    (getFromCache s k now).2.totalRequests = s.totalRequests := by
  unfold getFromCache
  split
  · rfl
  · split
    · rfl
    · split <;> rfl

lemma getFromCache_avg (s : AIState) (k : CacheKey) (now : Nat) :
    (getFromCache s k now).2.averageResponseTime = s.averageResponseTime := by
  unfold getFromCache
  split
  · rfl
  · split
    · rfl
    · split <;> rfl

lemma getFromCache_maxCtx (s : AIState) (k : CacheKey) (now : Nat) :
    (getFromCache s k now).2.maxContextMessages = s.maxContextMessages := by
  unfold getFromCache
  split
  · rfl
  · split
    · rfl
    · split <;> rfl

lemma ask_cacheDisabled_eq (s : AIState) (a : AskArgs)
    (hdis : s.cacheEnabled = false) :
    ask s a = askMiss { s with totalRequests := s.totalRequests + 1 } a
      (getCacheKey { s with totalRequests := s.totalRequests + 1 } a.prompt a.params) := by
  have h1 : getFromCache { s with totalRequests := s.totalRequests + 1 }
      (getCacheKey { s with totalRequests := s.totalRequests + 1 } a.prompt a.params) a.now
      = (none, { s with totalRequests := s.totalRequests + 1 }) := by
    unfold getFromCache
    rw [if_pos]
    exact hdis
  unfold ask
  by_cases hu : a.useCache
  · simp only [if_pos hu, h1]
  · simp only [if_neg hu]

lemma askMiss_cache_disabled (s : AIState) (a : AskArgs) (k : CacheKey)
    (hdis : s.cacheEnabled = false) :
    (askMiss s a k).state.cache = s.cache
    ∧ (askMiss s a k).state.cacheHits = s.cacheHits := by
  unfold askMiss
  have hen2 : (updateContext (dispatchRequest s a).2.2 a (dispatchRequest s a).1).cacheEnabled
      = false := by
    rw [updateContext_cacheEnabled, dispatchRequest_cacheEnabled]
    exact hdis
  constructor
  · rw [updateResponseTime_cache,
      cacheWrite_cache_disabled _ _ _ _ hen2,
      updateContext_cache, dispatchRequest_cache]
  · rw [updateResponseTime_cacheHits, cacheWrite_cacheHits,
      updateContext_cacheHits, dispatchRequest_cacheHits]

/-- C10: with `cache_responses` disabled in the optimization configuration,
every cache lookup reports absent and leaves the state untouched, every
cache write is a no-op, and a full `ask` call — even one invoked with
`use_cache = True` — leaves the cache contents and the hit counter exactly
as they were: the configuration flag silently overrides the caller's
`use_cache` argument. -/
theorem cacheDisabled_noop (s : AIState) (a : AskArgs) (k : CacheKey)
    (r : String) (now : Nat)
    (hdis : s.cacheEnabled = false) :
    getFromCache s k now = (none, s)
    ∧ addToCache s k r now = s
    ∧ (ask s a).state.cache = s.cache
    ∧ (ask s a).state.cacheHits = s.cacheHits := by
  refine ⟨?_, ?_, ?_, ?_⟩
  · unfold getFromCache
    rw [if_pos hdis]
  · exact addToCache_disabled s k r now hdis
  · rw [ask_cacheDisabled_eq s a hdis]
    exact (askMiss_cache_disabled { s with totalRequests := s.totalRequests + 1 } a
      (getCacheKey { s with totalRequests := s.totalRequests + 1 } a.prompt a.params) hdis).1
  · rw [ask_cacheDisabled_eq s a hdis]
    exact (askMiss_cache_disabled { s with totalRequests := s.totalRequests + 1 } a
      (getCacheKey { s with totalRequests := s.totalRequests + 1 } a.prompt a.params) hdis).2

/-- Concrete assistant state whose configuration set `cache_responses` to
false, with a live-looking entry in the cache store. -/
def cacheStateOff : AIState :=
  { initState "m" 1 true false 300 with
      cache := [(⟨"p", "m", 1⟩, ⟨"resp", 0⟩)] }

/-- Concrete `ask` call with `use_cache = True` against `cacheStateOff`. -/
def offArgs : AskArgs :=
  { prompt := "p", useContext := false, useCache := true, hasSink := false,
    params := ⟨none, none, none⟩, transportEvents := [],
    transportOneShot := some "fresh", now := 10, elapsed := 1 }

/-- Witness for C10 on `cacheStateOff` and `offArgs`. -/
theorem cacheDisabled_noop_witness :
    getFromCache cacheStateOff ⟨"p", "m", 1⟩ 10 = (none, cacheStateOff)
    ∧ addToCache cacheStateOff ⟨"p", "m", 1⟩ "other" 10 = cacheStateOff
    ∧ (ask cacheStateOff offArgs).state.cache = cacheStateOff.cache
    ∧ (ask cacheStateOff offArgs).state.cacheHits = cacheStateOff.cacheHits :=
  cacheDisabled_noop cacheStateOff offArgs ⟨"p", "m", 1⟩ "other" 10 rfl

lemma updateContext_length (s : AIState) (a : AskArgs) (t : String)
    (hm : 1 ≤ s.maxContextMessages)
    (hlen : s.context.length ≤ 2 * s.maxContextMessages) :
    (updateContext s a t).context.length ≤ 2 * s.maxContextMessages := by
  unfold updateContext
  split
  · simp only [truncCtx]
    by_cases hc : s.maxContextMessages * 2
        < (s.context ++ [(⟨"user", a.prompt⟩ : Message), ⟨"assistant", t⟩]).length
    · rw [if_pos hc]
      unfold pySliceLast
      rw [if_neg (by omega)]
      simp only [List.length_drop]
      omega
    · rw [if_neg hc]
      simp only [List.length_append] at hc ⊢
      omega
  · exact hlen

lemma askMiss_context_bound (s : AIState) (a : AskArgs) (k : CacheKey)
    (hm : 1 ≤ s.maxContextMessages)
    (hlen : s.context.length ≤ 2 * s.maxContextMessages) :
    (askMiss s a k).state.context.length ≤ 2 * s.maxContextMessages
    ∧ (askMiss s a k).state.maxContextMessages = s.maxContextMessages := by
  unfold askMiss
  simp only [updateResponseTime_context, updateResponseTime_maxCtx,
    cacheWrite_context, cacheWrite_maxCtx]
  constructor
  · have h := updateContext_length (dispatchRequest s a).2.2 a (dispatchRequest s a).1
      (by rw [dispatchRequest_maxCtx]; exact hm)
      (by rw [dispatchRequest_context, dispatchRequest_maxCtx]; exact hlen)
    rwa [dispatchRequest_maxCtx] at h
  · rw [updateContext_maxCtx, dispatchRequest_maxCtx]

lemma ask_context_step (s : AIState) (a : AskArgs)
    (hm : 1 ≤ s.maxContextMessages)
    (hlen : s.context.length ≤ 2 * s.maxContextMessages) :
    (ask s a).state.context.length ≤ 2 * s.maxContextMessages
    ∧ (ask s a).state.maxContextMessages = s.maxContextMessages := by
  have hmiss : ∀ s2 : AIState, s2.maxContextMessages = s.maxContextMessages →
      s2.context = s.context → ∀ k,
      (askMiss s2 a k).state.context.length ≤ 2 * s.maxContextMessages
      ∧ (askMiss s2 a k).state.maxContextMessages = s.maxContextMessages := by
    intro s2 h1 h2 k
    have hb := askMiss_context_bound s2 a k (by rw [h1]; exact hm)
      (by rw [h2, h1]; exact hlen)
    rw [h1] at hb
    exact hb
  simp only [ask]
  set s1 : AIState := { s with totalRequests := s.totalRequests + 1 } with hs1
  set key : CacheKey := getCacheKey s1 a.prompt a.params with hkey
  set g : Option String × AIState := getFromCache s1 key a.now with hg
  have hc2 : g.2.context = s.context := by
    rw [hg]
    exact getFromCache_context s1 key a.now
  have hm2 : g.2.maxContextMessages = s.maxContextMessages := by
    rw [hg]
    exact getFromCache_maxCtx s1 key a.now
  by_cases hu : a.useCache = true
  · rw [if_pos hu]
    cases hog : g.1 with
    | none =>
      dsimp only
      exact hmiss g.2 hm2 hc2 key
    | some cached =>
      dsimp only
      by_cases hemp : cached = ""
      · rw [if_pos hemp]
        exact hmiss g.2 hm2 hc2 key
      · rw [if_neg hemp]
        refine ⟨?_, ?_⟩
        · show g.2.context.length ≤ 2 * s.maxContextMessages
          rw [hc2]
          exact hlen
        · show g.2.maxContextMessages = s.maxContextMessages
          exact hm2
  · rw [if_neg hu]
    exact hmiss s1 rfl rfl key

lemma askSeq_context_bound (calls : List AskArgs) (s : AIState)
    (hm : 1 ≤ s.maxContextMessages)
    (hlen : s.context.length ≤ 2 * s.maxContextMessages) :
    (askSeqState s calls).context.length ≤ 2 * s.maxContextMessages := by
  induction calls generalizing s with
  | nil => simpa [askSeqState] using hlen
  | cons a rest ih =>
    simp only [askSeqState, List.foldl_cons]
    have h1 := ask_context_step s a hm hlen
    have h2 := ih (ask s a).state (by rw [h1.2]; exact hm) (by rw [h1.2]; exact h1.1)
    rw [h1.2] at h2
    exact h2

lemma updateContext_formula (s : AIState) (a : AskArgs) (t : String)
    (hm : 1 ≤ s.maxContextMessages)
    (huc : a.useContext = true) (hne : t ≠ "") :
    (updateContext s a t).context
      = (s.context ++ [(⟨"user", a.prompt⟩ : Message), ⟨"assistant", t⟩]).drop
          ((s.context.length + 2)
            - min (s.maxContextMessages * 2) (s.context.length + 2)) := by
  unfold updateContext
  rw [if_pos (by simp [huc, hne])]
  dsimp only
  unfold truncCtx
  set ctx := s.context ++ [(⟨"user", a.prompt⟩ : Message), ⟨"assistant", t⟩] with hctx
  have hlen2 : ctx.length = s.context.length + 2 := by simp [hctx]
  by_cases hc : s.maxContextMessages * 2 < ctx.length
  · rw [if_pos hc]
    unfold pySliceLast
    rw [if_neg (by omega)]
    congr 1
    omega
  · rw [if_neg hc]
    rw [(by omega : (s.context.length + 2)
      - min (s.maxContextMessages * 2) (s.context.length + 2) = 0)]
    rw [List.drop_zero]

lemma askMiss_context_formula (s : AIState) (a : AskArgs) (k : CacheKey)
    (hm : 1 ≤ s.maxContextMessages) (huc : a.useContext = true)
    (hne : (dispatchRequest s a).1 ≠ "") :
    (askMiss s a k).state.context
      = (s.context ++ [(⟨"user", a.prompt⟩ : Message),
            ⟨"assistant", (askMiss s a k).text⟩]).drop
          ((s.context.length + 2)
            - min (s.maxContextMessages * 2) (s.context.length + 2)) := by
  unfold askMiss
  dsimp only
  rw [updateResponseTime_context, cacheWrite_context]
  have h := updateContext_formula (dispatchRequest s a).2.2 a (dispatchRequest s a).1
    (by rw [dispatchRequest_maxCtx]; exact hm) huc hne
  rw [h, dispatchRequest_context, dispatchRequest_maxCtx]

lemma ask_context_formula (s : AIState) (a : AskArgs)
    (hm : 1 ≤ s.maxContextMessages) (huc : a.useContext = true)
    (hnc : a.useCache = false) (hne : (ask s a).text ≠ "") :
    (ask s a).state.context
      = (s.context ++ [(⟨"user", a.prompt⟩ : Message),
            ⟨"assistant", (ask s a).text⟩]).drop
          ((s.context.length + 2)
            - min (s.maxContextMessages * 2) (s.context.length + 2)) := by
  have hask : ask s a = askMiss { s with totalRequests := s.totalRequests + 1 } a
      (getCacheKey { s with totalRequests := s.totalRequests + 1 } a.prompt a.params) := by
    simp only [ask, hnc, Bool.false_eq_true, if_false]
  rw [hask] at hne ⊢
  exact askMiss_context_formula { s with totalRequests := s.totalRequests + 1 } a
    (getCacheKey { s with totalRequests := s.totalRequests + 1 } a.prompt a.params)
    hm huc hne

/-- C9: across any sequence of `ask` calls with `use_context` set, the
conversation context never holds more than `max_context_messages * 2`
messages (`max_context_messages` is hard-coded to 10, giving the default
cap of 20); and every completed non-cached call with a non-empty answer
appends the user/assistant pair at the end and truncates the list from the
front — dropping the oldest entries first — exactly when the cap is
exceeded. -/
theorem context_bounded (s : AIState) (calls : List AskArgs)
    (hm : 1 ≤ s.maxContextMessages)
    (hlen : s.context.length ≤ 2 * s.maxContextMessages)
    (hall : ∀ a ∈ calls, a.useContext = true) :
    (askSeqState s calls).context.length ≤ 2 * s.maxContextMessages
    ∧ ∀ a : AskArgs, a.useContext = true → a.useCache = false →
        (ask s a).text ≠ "" →
        (ask s a).state.context
          = (s.context ++ [(⟨"user", a.prompt⟩ : Message),
                ⟨"assistant", (ask s a).text⟩]).drop
              ((s.context.length + 2)
                - min (s.maxContextMessages * 2) (s.context.length + 2)) := by
  refine ⟨askSeq_context_bound calls s hm hlen, ?_⟩
  intro a huc hnc hne
  exact ask_context_formula s a hm huc hnc hne

/-- Concrete `ask` call with `use_context` set and the cache bypassed; the
transport answers "ok". -/
def ctxArgs : AskArgs :=
  { prompt := "hi", useContext := true, useCache := false, hasSink := false,
    params := ⟨none, none, none⟩, transportEvents := [],
    transportOneShot := some "ok", now := 0, elapsed := 1 }

/-- Witness for C9 from a fresh assistant state: one contextual call keeps
the window within the cap and appends exactly the user/assistant pair. -/
theorem context_bounded_witness :
    (askSeqState (initState "m" 1 true true 300) [ctxArgs]).context.length
        ≤ 2 * (initState "m" 1 true true 300).maxContextMessages
    ∧ (ask (initState "m" 1 true true 300) ctxArgs).state.context
        = ((initState "m" 1 true true 300).context
            ++ [(⟨"user", ctxArgs.prompt⟩ : Message),
                ⟨"assistant", (ask (initState "m" 1 true true 300) ctxArgs).text⟩]).drop
            (((initState "m" 1 true true 300).context.length + 2)
              - min ((initState "m" 1 true true 300).maxContextMessages * 2)
                  ((initState "m" 1 true true 300).context.length + 2)) :=
  ⟨(context_bounded (initState "m" 1 true true 300) [ctxArgs] (by decide) (by decide)
      (by decide)).1,
   (context_bounded (initState "m" 1 true true 300) [] (by decide) (by decide)
      (by decide)).2 ctxArgs rfl rfl (by decide)⟩

lemma ask_hit_eq (s : AIState) (a : AskArgs) (cached : String)
    (hu : a.useCache = true)
    (hg : (getFromCache { s with totalRequests := s.totalRequests + 1 }
        (getCacheKey { s with totalRequests := s.totalRequests + 1 } a.prompt a.params)
        a.now).1 = some cached)
    (hne : cached ≠ "") :
    ask s a = { text := cached,
                delivered := if a.hasSink then chunkText cached else [],
                state := (getFromCache { s with totalRequests := s.totalRequests + 1 }
                    (getCacheKey { s with totalRequests := s.totalRequests + 1 }
                      a.prompt a.params) a.now).2 } := by
  simp only [ask]
  rw [if_pos hu, hg]
  dsimp only
  rw [if_neg hne]

/-- C5 (amended): a cache hit served to a caller that supplied a sink
returns the cached text exactly (the very text the populating miss
returned), and delivers to the sink the cached text re-chunked into
non-empty groups of at most ten consecutive words; the ordered
concatenation of the delivered groups equals the cached text with its
whitespace normalized — the words joined by single spaces — which differs
from the cached text itself whenever that text carries leading, trailing,
or non-single-space whitespace. -/
theorem ask_cacheHit (s : AIState) (a : AskArgs) (e : CacheEntry)
    (hu : a.useCache = true) (hsink : a.hasSink = true)
    (hen : s.cacheEnabled = true)
    (hget : odGet s.cache (getCacheKey s a.prompt a.params) = some e)
    (hfresh : ¬ s.cacheTtl < a.now - e.timestamp)
    (hne : e.response ≠ "") :
    (ask s a).text = e.response
    ∧ (ask s a).delivered = chunkText e.response
    ∧ concatAll (ask s a).delivered = joinSp (pySplit e.response)
    ∧ ∀ c ∈ (ask s a).delivered, ∃ g, g ≠ [] ∧ g.length ≤ 10
        ∧ (∃ l1 l2, pySplit e.response = l1 ++ g ++ l2)
        ∧ (c = joinSp g ∨ c = joinSp g ++ " ") := by
  have hget1 : odGet ({ s with totalRequests := s.totalRequests + 1 } : AIState).cache
      (getCacheKey { s with totalRequests := s.totalRequests + 1 } a.prompt a.params)
      = some e := hget
  have hfresh1 : ¬ ({ s with totalRequests := s.totalRequests + 1 } : AIState).cacheTtl
      < a.now - e.timestamp := hfresh
  have hg : (getFromCache { s with totalRequests := s.totalRequests + 1 }
      (getCacheKey { s with totalRequests := s.totalRequests + 1 } a.prompt a.params)
      a.now).1 = some e.response := by
    unfold getFromCache
    rw [if_neg (by simp [hen]), hget1]
    dsimp only
    rw [if_neg hfresh1]
  have hask := ask_hit_eq s a e.response hu hg hne
  rw [hask]
  dsimp only
  rw [if_pos hsink]
  refine ⟨rfl, rfl, ?_, ?_⟩
  · unfold chunkText
    exact concat_chunkWordsAux (pySplit e.response).length (pySplit e.response) le_rfl
  · intro c hc
    unfold chunkText at hc
    exact chunkWordsAux_mem (pySplit e.response).length (pySplit e.response) c le_rfl hc

/-- Concrete assistant state whose cache stores the text "Hello " (trailing
space) for prompt "ping". -/
def cacheStateHello : AIState :=
  { initState "m" 1 true true 300 with
      cache := [(⟨"ping", "m", 1⟩, ⟨"Hello ", 0⟩)] }

/-- Concrete `ask` call for prompt "ping" with a sink supplied. -/
def pingArgs : AskArgs :=
  { prompt := "ping", useContext := false, useCache := true, hasSink := true,
    params := ⟨none, none, none⟩, transportEvents := [],
    transportOneShot := none, now := 10, elapsed := 1 }

/-- C5 counterexample: for the cached text "Hello " (exactly the full text
a streaming miss for increments ["Hel", "lo "] would have cached), the hit
returns "Hello " but delivers the single group "Hello" to the sink, whose
concatenation "Hello" differs from the cached text — against the claim
that the concatenation of the delivered groups equals the cached text. -/
theorem ask_cacheHit_counterexample :
    (ask cacheStateHello pingArgs).text = "Hello "
    ∧ (ask cacheStateHello pingArgs).delivered = ["Hello"]
    ∧ concatAll (ask cacheStateHello pingArgs).delivered
        ≠ (ask cacheStateHello pingArgs).text := by
  refine ⟨rfl, rfl, ?_⟩
  decide

/-- Concrete assistant state whose cache stores "pong indeed" for prompt
"ping". -/
def cacheStatePing : AIState :=
  { initState "m" 1 true true 300 with
      cache := [(⟨"ping", "m", 1⟩, ⟨"pong indeed", 0⟩)] }

/-- Witness for C5 (amended) on `cacheStatePing`. -/
theorem ask_cacheHit_witness :
    (ask cacheStatePing pingArgs).text = "pong indeed"
    ∧ (ask cacheStatePing pingArgs).delivered = chunkText "pong indeed"
    ∧ concatAll (ask cacheStatePing pingArgs).delivered
        = joinSp (pySplit "pong indeed") :=
  ⟨(ask_cacheHit cacheStatePing pingArgs ⟨"pong indeed", 0⟩ rfl rfl rfl
      (by decide) (by decide) (by decide)).1,
   (ask_cacheHit cacheStatePing pingArgs ⟨"pong indeed", 0⟩ rfl rfl rfl
      (by decide) (by decide) (by decide)).2.1,
   (ask_cacheHit cacheStatePing pingArgs ⟨"pong indeed", 0⟩ rfl rfl rfl
      (by decide) (by decide) (by decide)).2.2.1⟩

lemma ask_noCache_metrics (s : AIState) (a : AskArgs) (hnc : a.useCache = false) :
    (ask s a).state.totalRequests = s.totalRequests + 1
    ∧ (ask s a).state.averageResponseTime
        = (s.averageResponseTime * (s.totalRequests : ℚ) + a.elapsed)
          / ((s.totalRequests : ℚ) + 1) := by
  have hask : ask s a = askMiss { s with totalRequests := s.totalRequests + 1 } a
      (getCacheKey { s with totalRequests := s.totalRequests + 1 } a.prompt a.params) := by
    simp only [ask, hnc, Bool.false_eq_true, if_false]
  rw [hask]
  unfold askMiss
  dsimp only
  constructor
  · rw [updateResponseTime_totalRequests, cacheWrite_totalRequests,
      updateContext_totalRequests, dispatchRequest_totalRequests]
  · unfold updateResponseTime
    dsimp only
    rw [cacheWrite_avg, updateContext_avg, dispatchRequest_avg,
      cacheWrite_totalRequests, updateContext_totalRequests, dispatchRequest_totalRequests]
    dsimp only
    push_cast
    ring_nf

lemma askSeq_metrics (calls : List AskArgs) (s : AIState)
    (hnc : ∀ a ∈ calls, a.useCache = false) :
    (askSeqState s calls).totalRequests = s.totalRequests + calls.length
    ∧ (askSeqState s calls).averageResponseTime
        * ((s.totalRequests : ℚ) + (calls.length : ℚ))
      = s.averageResponseTime * (s.totalRequests : ℚ)
        + (calls.map AskArgs.elapsed).sum := by
  induction calls generalizing s with
  | nil => simp [askSeqState]
  | cons a rest ih =>
    have h1 := ask_noCache_metrics s a (hnc a (List.mem_cons_self a rest))
    have h2 := ih (ask s a).state (fun x hx => hnc x (List.mem_cons_of_mem a hx))
    simp only [askSeqState, List.foldl_cons] at h2 ⊢
    have htQ : (((ask s a).state.totalRequests : Nat) : ℚ)
        = (s.totalRequests : ℚ) + 1 := by
      rw [h1.1]
      push_cast
      ring
    have hnz : ((s.totalRequests : ℚ) + 1) ≠ 0 := by positivity
    constructor
    · rw [h2.1, h1.1]
      simp only [List.length_cons]
      omega
    · have h22 := h2.2
      rw [htQ, h1.2, div_mul_cancel₀ _ hnz] at h22
      simp only [List.map_cons, List.sum_cons, List.length_cons]
      push_cast
      linear_combination h22

/-- C8 (amended): `_update_response_time` runs only on calls not served
from the cache — a cache hit returns before it, incrementing
`total_requests` without touching the mean — so after any history of asks
none of which hit the cache (here: all bypassing it), and starting from
fresh metrics, `average_response_time` equals the arithmetic mean of the
elapsed wall times of all requests counted in `total_requests`, maintained
incrementally with no retained history of samples. -/
theorem averageResponseTime_mean (s : AIState) (calls : List AskArgs)
    (hzero : s.totalRequests = 0) (hzavg : s.averageResponseTime = 0)
    (hnc : ∀ a ∈ calls, a.useCache = false) (hne : calls ≠ []) :
    (askSeqState s calls).totalRequests = calls.length
    ∧ (askSeqState s calls).averageResponseTime
        = (calls.map AskArgs.elapsed).sum / (calls.length : ℚ) := by
  have h := askSeq_metrics calls s hnc
  rw [hzero, hzavg] at h
  refine ⟨by simpa using h.1, ?_⟩
  have h2 := h.2
  simp only [Nat.cast_zero, zero_add, zero_mul] at h2
  have hlen : (calls.length : ℚ) ≠ 0 := by
    have hpos : 0 < calls.length := List.length_pos.mpr hne
    exact_mod_cast Nat.pos_iff_ne_zero.mp hpos
  rw [eq_div_iff hlen]
  exact h2

/-- Concrete fresh-metrics state whose cache already stores "A" for prompt
"p". -/
def cacheStateMetrics : AIState :=
  { initState "m" 1 true true 300 with cache := [(⟨"p", "m", 1⟩, ⟨"A", 0⟩)] }

/-- Concrete `ask` call for prompt "p" measuring 4 seconds of wall time. -/
def hitCall : AskArgs :=
  { prompt := "p", useContext := false, useCache := true, hasSink := false,
    params := ⟨none, none, none⟩, transportEvents := [],
    transportOneShot := some "A", now := 10, elapsed := 4 }

/-- C8 counterexample: a single `ask` served from the cache increments
`total_requests` to 1 but returns before `_update_response_time`, leaving
`average_response_time` at 0 — whereas the claimed running mean over the
one counted request is its elapsed time 4. -/
theorem averageResponseTime_counterexample :
    (ask cacheStateMetrics hitCall).state.totalRequests = 1
    ∧ (ask cacheStateMetrics hitCall).state.averageResponseTime = 0
    ∧ (ask cacheStateMetrics hitCall).state.averageResponseTime
        ≠ hitCall.elapsed
          / (((ask cacheStateMetrics hitCall).state.totalRequests : Nat) : ℚ) := by
  have hg : (getFromCache
      { cacheStateMetrics with totalRequests := cacheStateMetrics.totalRequests + 1 }
      (getCacheKey
        { cacheStateMetrics with totalRequests := cacheStateMetrics.totalRequests + 1 }
        hitCall.prompt hitCall.params)
      hitCall.now).1 = some "A" := by decide
  have hask := ask_hit_eq cacheStateMetrics hitCall "A" rfl hg (by decide)
  rw [hask]
  dsimp only
  have ht : (getFromCache
      { cacheStateMetrics with totalRequests := cacheStateMetrics.totalRequests + 1 }
      (getCacheKey
        { cacheStateMetrics with totalRequests := cacheStateMetrics.totalRequests + 1 }
        hitCall.prompt hitCall.params)
      hitCall.now).2.totalRequests = 1 := by
    rw [getFromCache_totalRequests]
    rfl
  have ha : (getFromCache
      { cacheStateMetrics with totalRequests := cacheStateMetrics.totalRequests + 1 }
      (getCacheKey
        { cacheStateMetrics with totalRequests := cacheStateMetrics.totalRequests + 1 }
        hitCall.prompt hitCall.params)
      hitCall.now).2.averageResponseTime = 0 := by
    rw [getFromCache_avg]
    rfl
  refine ⟨ht, ha, ?_⟩
  rw [ht, ha]
  show (0 : ℚ) ≠ hitCall.elapsed / ((1 : Nat) : ℚ)
  have he : hitCall.elapsed = 4 := rfl
  rw [he]
  norm_num

/-- Concrete non-cached `ask` call measuring 2 seconds of wall time. -/
def missCallA : AskArgs :=
  { prompt := "p", useContext := false, useCache := false, hasSink := false,
    params := ⟨none, none, none⟩, transportEvents := [],
    transportOneShot := some "A", now := 0, elapsed := 2 }

/-- Concrete non-cached `ask` call measuring 4 seconds of wall time. -/
def missCallB : AskArgs :=
  { prompt := "q", useContext := false, useCache := false, hasSink := false,
    params := ⟨none, none, none⟩, transportEvents := [],
    transportOneShot := some "B", now := 1, elapsed := 4 }

/-- Witness for C8 (amended): two non-cached calls of 2 and 4 seconds give
a counted total of 2 and a mean of (2 + 4) / 2. -/
theorem averageResponseTime_mean_witness :
    (askSeqState (initState "m" 1 true true 300) [missCallA, missCallB]).totalRequests
        = ([missCallA, missCallB] : List AskArgs).length
    ∧ (askSeqState (initState "m" 1 true true 300)
          [missCallA, missCallB]).averageResponseTime
        = (([missCallA, missCallB] : List AskArgs).map AskArgs.elapsed).sum
          / ((([missCallA, missCallB] : List AskArgs).length : Nat) : ℚ) :=
  averageResponseTime_mean (initState "m" 1 true true 300) [missCallA, missCallB]
    rfl rfl (by decide) (by decide)
